import Mathlib

/-!
Verification of the disk-cache decorator in `src/utils/decorators.py`
(`disk_cache_results` and its inner `wrapper` / `find_latest_cache_file`).

Shallow embedding conventions:
* Python values that can appear as arguments or results are modelled by the
  inductive `PyVal`; `unpicklable` stands for an object whose pickling raises
  `PicklingError`/`TypeError` (e.g. a lambda or a socket), `pyList` for an
  unhashable container.
* `pickle.dumps`/`pickle.loads` of a result are modelled by `PBytes`:
  well-formed bytes carry the value, `junk` models corrupt or truncated bytes
  (a load of `junk` raises, i.e. returns `none`).
* The SHA-256 hex digest of `pickle.dumps((args, frozenset(kwargs.items())))`
  is modelled by the serialized key data itself (`KeyT`): the digest is used
  only as an identifier, so an injective stand-in is faithful.  Frozenset
  pickling follows the process's hash-table iteration order, which is not a
  function of the set alone; that order is the explicit `ord`/`setOrder`
  parameter of `keyHash` and `Env`.
* The filesystem under `BASE_CACHE_DIR` is the `Store`: the set of existing
  `ClassName/MethodName` namespace directories, the children of each namespace
  directory (name plus is-directory flag, in `iterdir` order), and the
  contents of the key-named files inside date directories.
* OS-level nondeterminism (clock, I/O faults, hash seed) is an explicit
  `Env`: `todayStr` is the string `datetime.now().strftime("%Y%m%d")`, and
  the fault flags make `mkdir` / `open` / the lookup scan's unprotected
  `iterdir`/`is_dir`/`exists` raise at the corresponding call sites.
* A call returns a `CallOut`: the caller-visible outcome (`Res`), the final
  store, and a trace of events (lock acquire/release with the lock identity,
  file reads/writes, and invocations of the wrapped function).
-/

inductive PyScalar where
  | sInt : Int → PyScalar
  | sStr : String → PyScalar
  | sNone : PyScalar
  deriving DecidableEq, Repr

inductive PyVal where
  | pyInt : Int → PyVal
  | pyStr : String → PyVal
  | pyNone : PyVal
  | pyList : List PyScalar → PyVal
  | unpicklable : Nat → PyVal
  deriving DecidableEq, Repr

/-- Whether `pickle.dumps` succeeds on the value (arguments and results);
`unpicklable` stands for the objects on which it raises. -/
def picklable : PyVal → Bool
  | .unpicklable _ => false
  | _ => true

def picklableList (xs : List PyVal) : Bool := xs.all picklable

/-- Whether the value is hashable (needed for `frozenset(kwargs.items())`);
lists/dicts are unhashable, scalars and arbitrary objects are hashable. -/
def hashable : PyVal → Bool
  | .pyList _ => false
  | _ => true

/-- Serialized bytes of one stored result: either the well-formed pickle of a
value, or junk (corrupt, truncated, or externally overwritten bytes). -/
inductive PBytes where
  | val : PyVal → PBytes
  | junk : Nat → PBytes
  deriving DecidableEq, Repr

/-- Model of `pickle.load` on stored bytes: junk raises (returns `none`). -/
def pickleLoads : PBytes → Option PyVal
  | .val v => some v
  | .junk _ => none

/-- Exceptions visible to the caller: a failure of the wrapped function
itself, or an `OSError` from an unprotected filesystem call. -/
inductive Exc where
  | funcErr : Nat → Exc
  | osError : Exc
  deriving DecidableEq, Repr

/-- Outcome of a Python call: normal return or raised exception. -/
inductive Res where
  | ok : PyVal → Res
  | exc : Exc → Res
  deriving DecidableEq, Repr

/-- Keyword arguments: a dict as an insertion-ordered association list. -/
abbrev Kwargs := List (String × PyVal)

/-- Canonical key data: `(args, frozenset(kwargs.items()))` with the
frozenset in canonical (key-sorted) order.  Injective stand-in for the
SHA-256 hex digest of its pickle. -/
abbrev KeyT := List PyVal × List (String × PyVal)

/-- Full path of a cache entry below the cache root:
`(class name, method name, date directory name, key digest)`. -/
abbrev PathT := String × String × String × KeyT

instance : DecidableEq PathT := fun a b => inferInstanceAs (Decidable (a = b))

instance : DecidableEq (PathT × PBytes) := fun a b =>
  inferInstanceAs (Decidable (a = b))

/-- Model of lines 31-34: `key_data = (args, frozenset(kwargs.items()))`,
`key_bytes = pickle.dumps(key_data)`, `key_hash = sha256(key_bytes)`.
`none` models the caught `PicklingError`/`TypeError` (unpicklable argument,
or unhashable kwarg value rejected by `frozenset`).

`pickle.dumps` of a frozenset serializes its elements in hash-table
iteration order, which is NOT a function of the set alone: it depends on
the per-process hash seed and, under slot collisions, on insertion order
(equal dicts built in different orders can pickle differently within one
CPython process).  That process-level iteration order is the explicit
parameter `ord`, an arbitrary rearrangement of the insertion-ordered item
list; the identity (iteration follows insertion order) is one of its
realizable values. -/
def keyHash (ord : Kwargs → Kwargs) (args : List PyVal) (kw : Kwargs) :
    Option KeyT :=
  if picklableList args ∧ kw.all (fun p => hashable p.2 && picklable p.2) then
    some (args, ord kw)
  else none

/-- Lexicographic order on keyword names and the key-sorted item list: one
possible frozenset iteration order, used to exhibit runs in which equal
dicts do iterate identically. -/
def charListLe : List Char → List Char → Bool
  | [], _ => true
  | _ :: _, [] => false
  | a :: as, b :: bs => if a = b then charListLe as bs else decide (a < b)

def kwLeB (p q : String × PyVal) : Bool := charListLe p.1.data q.1.data

def insertKw (x : String × PyVal) : Kwargs → Kwargs
  | [] => [x]
  | y :: ys => if kwLeB x y then x :: y :: ys else y :: insertKw x ys

def normKwargs : Kwargs → Kwargs
  | [] => []
  | x :: xs => insertKw x (normKwargs xs)

/-- A calendar date as parsed by `datetime.strptime(name, "%Y%m%d")`. -/
structure PDate where
  y : Nat
  m : Nat
  d : Nat
  deriving DecidableEq, Repr

/-- Comparison of `datetime` values restricted to dates (lexicographic). -/
def dateLe (a b : PDate) : Prop :=
  a.y < b.y ∨ (a.y = b.y ∧ (a.m < b.m ∨ (a.m = b.m ∧ a.d ≤ b.d)))

instance (a b : PDate) : Decidable (dateLe a b) := by
  unfold dateLe; infer_instance

theorem dateLe_refl (a : PDate) : dateLe a a := by unfold dateLe; omega

theorem dateLe_trans {a b c : PDate} (h : dateLe a b) (h' : dateLe b c) :
    dateLe a c := by
  unfold dateLe at *; omega

theorem dateLe_total (a b : PDate) : dateLe a b ∨ dateLe b a := by
  unfold dateLe; omega

def isLeap (y : Nat) : Bool := (y % 4 == 0 && y % 100 != 0) || y % 400 == 0

def daysInMonth (y m : Nat) : Nat :=
  if m = 2 then (if isLeap y then 29 else 28)
  else if m = 4 ∨ m = 6 ∨ m = 9 ∨ m = 11 then 30
  else 31

def digitVal (ch : Char) : Nat := ch.toNat - 48

/-- The day group of CPython's `_strptime` TimeRE for `%d`:
`3[0-1]|[1-2]\d|0[1-9]|[1-9]| [1-9]` — alternatives tried in this order,
first match returned (with the rest of the input). -/
def dayAlt : List Char → Option (Nat × List Char)
  | c1 :: c2 :: rest =>
    if c1 = '3' && (c2 = '0' || c2 = '1') then some (30 + digitVal c2, rest)
    else if (c1 = '1' || c1 = '2') && c2.isDigit then
      some (10 * digitVal c1 + digitVal c2, rest)
    else if c1 = '0' && ('1' ≤ c2 && c2 ≤ '9') then some (digitVal c2, rest)
    else if '1' ≤ c1 && c1 ≤ '9' then some (digitVal c1, c2 :: rest)
    else if c1 = ' ' && ('1' ≤ c2 && c2 ≤ '9') then some (digitVal c2, rest)
    else none
  | [c1] => if '1' ≤ c1 && c1 ≤ '9' then some (digitVal c1, []) else none
  | [] => none

/-- The month group (`1[0-2]|0[1-9]|[1-9]`) followed by the day group, with
the regex engine's backtracking: if the two-digit month alternative
`1[0-2]` matches but no day alternative matches after it, the engine
retries the one-digit month `[1-9]` (the `0[1-9]` alternative has no
one-digit fallback).  Returns the FIRST successful (month, day) match; any
unconsumed input is returned for the caller's length check. -/
def monthDayAlt : List Char → Option (Nat × Nat × List Char)
  | c1 :: c2 :: rest =>
    if c1 = '1' && ('0' ≤ c2 && c2 ≤ '2') then
      match dayAlt rest with
      | some (dd, rest2) => some (10 + digitVal c2, dd, rest2)
      | none =>
        match dayAlt (c2 :: rest) with
        | some (dd, rest2) => some (1, dd, rest2)
        | none => none
    else if c1 = '0' && ('1' ≤ c2 && c2 ≤ '9') then
      match dayAlt rest with
      | some (dd, rest2) => some (digitVal c2, dd, rest2)
      | none => none
    else if '1' ≤ c1 && c1 ≤ '9' then
      match dayAlt (c2 :: rest) with
      | some (dd, rest2) => some (digitVal c1, dd, rest2)
      | none => none
    else none
  | _ => none

/-- Model of `datetime.strptime(name, "%Y%m%d")` returning `none` where
CPython raises `ValueError`.  CPython compiles the format to
`(?P<Y>\d\d\d\d)(?P<m>1[0-2]|0[1-9]|[1-9])(?P<d>3[0-1]|[1-2]\d|0[1-9]|[1-9]| [1-9])`,
takes the first backtracking match, raises if input remains unconverted
(`found.end() != len`), and then builds the `datetime`, which validates the
day against the month's length and rejects year 0.  So `"2024120"` parses
as 2024-01-20, `"202411"` as 2024-01-01, and `"1111"`, `"20241"`,
`"202410"` raise. -/
def parseDate8 (s : String) : Option PDate :=
  match s.data with
  | y1 :: y2 :: y3 :: y4 :: rest =>
    if y1.isDigit && y2.isDigit && y3.isDigit && y4.isDigit then
      let y := digitVal y1 * 1000 + digitVal y2 * 100 + digitVal y3 * 10 +
        digitVal y4
      match monthDayAlt rest with
      | some (mo, dd, rest2) =>
        if rest2 = [] then
          if 1 ≤ y ∧ dd ≤ daysInMonth y mo then some ⟨y, mo, dd⟩ else none
        else none
      | none => none
    else none
  | _ => none

/-- The on-disk store, restricted to the cache root.  `nsDirs` lists the
existing `ClassName/MethodName` directories; `children` the entries of each
namespace directory in `iterdir` order (name, is-directory); `files` the
contents of key-named files inside date directories. -/
structure Store where
  nsDirs : List (String × String)
  children : List ((String × String) × String × Bool)
  files : List (PathT × PBytes)
  deriving DecidableEq, Repr

/-- Lookup of one file's bytes (first matching path). -/
def findF : List (PathT × PBytes) → PathT → Option PBytes
  | [], _ => none
  | e :: es, p => if e.1 = p then some e.2 else findF es p

/-- Overwrite-or-create of one file's bytes. -/
def setF : List (PathT × PBytes) → PathT → PBytes → List (PathT × PBytes)
  | [], p, b => [(p, b)]
  | e :: es, p, b => if e.1 = p then (p, b) :: es else e :: setF es p b

def getFile (st : Store) (p : PathT) : Option PBytes :=
  findF st.files p

def setFile (st : Store) (p : PathT) (b : PBytes) : Store :=
  { st with files := setF st.files p b }

/-- Model of `cache_base_dir.mkdir(parents=True, exist_ok=True)` (line 28). -/
def mkdirNs (c m : String) (st : Store) : Store :=
  if (c, m) ∈ st.nsDirs then st else { st with nsDirs := st.nsDirs ++ [(c, m)] }

def hasChildName (st : Store) (c m name : String) : Bool :=
  st.children.any (fun e => decide (e.1 = (c, m)) && decide (e.2.1 = name))

/-- A non-directory child with this name exists: `mkdir(exist_ok=True)` on
that path raises `FileExistsError`. -/
def strayConflict (st : Store) (c m name : String) : Bool :=
  st.children.any (fun e =>
    decide (e.1 = (c, m)) && decide (e.2.1 = name) && decide (e.2.2 = false))

/-- Model of `today_cache_dir.mkdir(parents=True, exist_ok=True)` in the
non-raising case. -/
def addChild (c m name : String) (st : Store) : Store :=
  if hasChildName st c m name then st
  else { st with children := st.children ++ [((c, m), name, true)] }

/-- Model of `cache_base_dir.iterdir()`: children of the namespace dir. -/
def iterdir (st : Store) (c m : String) : List (String × Bool) :=
  (st.children.filter (fun e => decide (e.1 = (c, m)))).map (fun e => e.2)

/-- The loop body of `find_latest_cache_file` (lines 41-51): for each child,
keep it iff it is a directory, contains the key-named file, and its name
parses as a date; a `ValueError` from `strptime` is caught and the directory
skipped. -/
def collectMatches (st : Store) (c m : String) (kh : KeyT) : List (PDate × String) :=
  (iterdir st c m).filterMap (fun e =>
    if e.2 then
      if (getFile st (c, m, e.1, kh)).isSome then
        match parseDate8 e.1 with
        | some d => some (d, e.1)
        | none => none
      else none
    else none)

/-- Stable descending insertion: the model of
`cache_files.sort(reverse=True, key=lambda x: x[0])` (stable, ties keep
original order). -/
def insertDesc (x : PDate × String) : List (PDate × String) → List (PDate × String)
  | [] => [x]
  | y :: ys => if dateLe y.1 x.1 then x :: y :: ys else y :: insertDesc x ys

def sortRev : List (PDate × String) → List (PDate × String)
  | [] => []
  | x :: xs => insertDesc x (sortRev xs)

/-- Model of `find_latest_cache_file` (lines 40-56): the date directory of
the selected entry, or `none` for a miss. -/
def find_latest_cache_file (st : Store) (c m : String) (kh : KeyT) : Option String :=
  match sortRev (collectMatches st c m kh) with
  | [] => none
  | x :: _ => some x.2

/-- Events observable during one wrapped call: lock acquire/release (with the
identity of the lock object), the file read/write performed under the lock,
and invocations of the wrapped function. -/
inductive Ev where
  | acquire : Nat → Ev
  | release : Nat → Ev
  | fRead : Ev
  | fWrite : Ev
  | callF : Ev
  deriving DecidableEq, Repr

/-- Number of invocations of the wrapped function in a trace. -/
def countCalls (tr : List Ev) : Nat :=
  tr.countP (fun e => match e with | .callF => true | _ => false)

/-- Environment of one call: the current date string, which OS calls fail,
and the process's frozenset iteration order (see `keyHash`).  `scanFault`
models the unprotected filesystem calls of the lookup scan — `iterdir()`
(line 42), `is_dir()` (line 43) and `cache_file.exists()` (line 45), all
outside any try/except — raising `OSError`. -/
structure Env where
  todayStr : String
  mkdirBaseFault : Bool
  mkdirTodayFault : Bool
  openReadFault : Bool
  openWriteFault : Bool
  scanFault : Bool
  setOrder : Kwargs → Kwargs

/-- An instance of the decorated class: its class name and its own state
(API key, email, ...). -/
structure Obj where
  className : String
  state : PyVal
  deriving DecidableEq, Repr

/-- Result of one wrapped call: caller-visible outcome, final store, trace. -/
structure CallOut where
  out : Res
  st : Store
  trace : List Ev
  deriving DecidableEq, Repr

/-- The function type of a decorated method before decoration:
`func(self, *args, **kwargs)`. -/
abbrev PyFunc := Obj → List PyVal → Kwargs → Res

/-- Model of lines 64-74 and 94-103: save the result to a cache file in
today's directory.  `today_cache_dir.mkdir(parents=True, exist_ok=True)`
sits OUTSIDE the try/except, so a failure there (fault, or an existing
non-directory child with today's name) raises to the caller; the
`open`/`pickle.dump` failures inside the try are logged and swallowed.  A
failed `pickle.dump` of an unpicklable result still leaves the freshly
truncated (junk) file behind, because `open(..., 'wb')` already ran. -/
def persist (lid : Nat) (env : Env) (c m : String) (kh : KeyT) (r : PyVal)
    (st : Store) (tr : List Ev) : CallOut :=
  if env.mkdirTodayFault || strayConflict st c m env.todayStr then
    ⟨.exc .osError, st, tr⟩
  else
    let st2 := addChild c m env.todayStr st
    if env.openWriteFault then
      ⟨.ok r, st2, tr ++ [.acquire lid, .release lid]⟩
    else if picklable r then
      ⟨.ok r, setFile st2 (c, m, env.todayStr, kh) (.val r),
        tr ++ [.acquire lid, .fWrite, .release lid]⟩
    else
      ⟨.ok r, setFile st2 (c, m, env.todayStr, kh) (.junk 0),
        tr ++ [.acquire lid, .fWrite, .release lid]⟩

/-- Model of lines 92-103: cache miss — execute the function (an exception
from it propagates unchanged) and persist the result. -/
def missExec (lid : Nat) (func : PyFunc) (self : Obj) (args : List PyVal)
    (kwargs : Kwargs) (m : String) (kh : KeyT) (env : Env) (st : Store)
    (tr : List Ev) : CallOut :=
  match func self args kwargs with
  | .exc e => ⟨.exc e, st, tr ++ [.callF]⟩
  | .ok r => persist lid env self.className m kh r st (tr ++ [.callF])

/-- Model of the inner `wrapper(self, *args, force=False, **kwargs)`
(lines 21-103), with `lid` the identity of the decoration's
`cache_lock`.  Mirrors the source order: eager `mkdir` of the namespace
directory, key derivation with fallback to direct execution, the
unconditional `find_latest_cache_file()` scan (whose unprotected
`iterdir`/`is_dir`/`exists` calls raise to the caller on `scanFault`), then
the bypass / hit / miss decision tree. -/
def wrapper (lid : Nat) (func : PyFunc) (funcName : String) (self : Obj)
    (args : List PyVal) (kwargs : Kwargs) (force : Bool) (env : Env)
    (st : Store) : CallOut :=
  let c := self.className
  if env.mkdirBaseFault then ⟨.exc .osError, st, []⟩
  else
    let st1 := mkdirNs c funcName st
    match keyHash env.setOrder args kwargs with
    | none =>
      match func self args kwargs with
      | .ok r => ⟨.ok r, st1, [.callF]⟩
      | .exc e => ⟨.exc e, st1, [.callF]⟩
    | some kh =>
      if env.scanFault then ⟨.exc .osError, st1, []⟩
      else
      let cf := find_latest_cache_file st1 c funcName kh
      if force then
        match func self args kwargs with
        | .exc e => ⟨.exc e, st1, [.callF]⟩
        | .ok r => persist lid env c funcName kh r st1 [.callF]
      else
        match cf with
        | some dname =>
          if env.openReadFault then
            missExec lid func self args kwargs funcName kh env st1
              [.acquire lid, .release lid]
          else
            match pickleLoads ((getFile st1 (c, funcName, dname, kh)).getD (.junk 0)) with
            | some v => ⟨.ok v, st1, [.acquire lid, .fRead, .release lid]⟩
            | none =>
              missExec lid func self args kwargs funcName kh env st1
                [.acquire lid, .fRead, .release lid]
        | none => missExec lid func self args kwargs funcName kh env st1 []

/-- A decorated method: the wrapped function together with the decoration's
own `cache_lock` (a fresh `threading.Lock()` allocated at decoration time,
line 19). -/
structure Decorated where
  func : PyFunc
  funcName : String
  lockId : Nat

/-- Model of `disk_cache_results(func)`: allocates a fresh lock for this
decoration (`cache_lock = threading.Lock()`) and returns the wrapper;
`nextLockId` threads the allocator state. -/
def disk_cache_results (func : PyFunc) (funcName : String) (nextLockId : Nat) :
    Decorated × Nat :=
  (⟨func, funcName, nextLockId⟩, nextLockId + 1)

/-- One call of a decorated method. -/
def callDecorated (d : Decorated) (self : Obj) (args : List PyVal)
    (kwargs : Kwargs) (force : Bool) (env : Env) (st : Store) : CallOut :=
  wrapper d.lockId d.func d.funcName self args kwargs force env st

/-- Well-scoped lock discipline of a trace with respect to lock `lid`: only
lock `lid` is ever acquired or released, acquisitions are not nested, every
file read/write happens while the lock is held, and the wrapped function is
never invoked while the lock is held. -/
def lockScoped (lid : Nat) : Bool → List Ev → Bool
  | held, [] => !held
  | held, .acquire l :: tl => !held && decide (l = lid) && lockScoped lid true tl
  | held, .release l :: tl => held && decide (l = lid) && lockScoped lid false tl
  | held, .fRead :: tl => held && lockScoped lid held tl
  | held, .fWrite :: tl => held && lockScoped lid held tl
  | held, .callF :: tl => !held && lockScoped lid held tl

/-- Environment with no injected OS faults. -/
def faultFree (env : Env) : Prop :=
  env.mkdirBaseFault = false ∧ env.mkdirTodayFault = false ∧
    env.openReadFault = false ∧ env.openWriteFault = false ∧
    env.scanFault = false

/-- No stored entry for this key, in a date directory the lookup would
consider, holds corrupt bytes. -/
def noCorrupt (st : Store) (c m : String) (kh : KeyT) : Bool :=
  st.children.all (fun e =>
    if decide (e.1 = (c, m)) && e.2.2 && (parseDate8 e.2.1).isSome then
      match getFile st (c, m, e.2.1, kh) with
      | some (.val _) => true
      | some (.junk _) => false
      | none => true
    else true)

theorem mkdirNs_children (c m : String) (st : Store) :
    (mkdirNs c m st).children = st.children := by
  unfold mkdirNs; split <;> rfl

theorem mkdirNs_files (c m : String) (st : Store) :
    (mkdirNs c m st).files = st.files := by
  unfold mkdirNs; split <;> rfl

theorem mkdirNs_mem (c m : String) (st : Store) :
    (c, m) ∈ (mkdirNs c m st).nsDirs := by
  unfold mkdirNs; split
  · assumption
  · simp

theorem mkdirNs_of_mem {c m : String} {st : Store} (h : (c, m) ∈ st.nsDirs) :
    mkdirNs c m st = st := by
  unfold mkdirNs; rw [if_pos h]

theorem addChild_nsDirs (c m name : String) (st : Store) :
    (addChild c m name st).nsDirs = st.nsDirs := by
  unfold addChild; split <;> rfl

theorem addChild_files (c m name : String) (st : Store) :
    (addChild c m name st).files = st.files := by
  unfold addChild; split <;> rfl

theorem setFile_nsDirs (st : Store) (p : PathT) (b : PBytes) :
    (setFile st p b).nsDirs = st.nsDirs := rfl

theorem setFile_children (st : Store) (p : PathT) (b : PBytes) :
    (setFile st p b).children = st.children := rfl

theorem findF_setF_same (l : List (PathT × PBytes)) (p : PathT) (b : PBytes) :
    findF (setF l p b) p = some b := by
  induction l with
  | nil => simp [setF, findF]
  | cons e es ih =>
    unfold setF
    split
    · unfold findF; simp
    · unfold findF; split
      · simp_all
      · exact ih

theorem findF_setF_ne (l : List (PathT × PBytes)) {p q : PathT} (b : PBytes)
    (h : q ≠ p) : findF (setF l p b) q = findF l q := by
  induction l with
  | nil =>
    have h' : ¬(p = q) := fun hh => h hh.symm
    simp [setF, findF, h']
  | cons e es ih =>
    unfold setF
    split
    · unfold findF
      rename_i he
      rw [if_neg (by simp [Ne.symm h]), if_neg (by rw [he]; exact Ne.symm h)]
    · unfold findF; split
      · rfl
      · exact ih

theorem getFile_setFile_same (st : Store) (p : PathT) (b : PBytes) :
    getFile (setFile st p b) p = some b := findF_setF_same st.files p b

theorem getFile_setFile_ne (st : Store) {p q : PathT} (b : PBytes) (h : q ≠ p) :
    getFile (setFile st p b) q = getFile st q := findF_setF_ne st.files b h

theorem getFile_mkdirNs (c' m' : String) (st : Store) (p : PathT) :
    getFile (mkdirNs c' m' st) p = getFile st p := by
  unfold getFile; rw [mkdirNs_files]

theorem getFile_addChild (c' m' name : String) (st : Store) (p : PathT) :
    getFile (addChild c' m' name st) p = getFile st p := by
  unfold getFile; rw [addChild_files]

theorem insertDesc_ne_nil (x : PDate × String) (l : List (PDate × String)) :
    insertDesc x l ≠ [] := by
  cases l with
  | nil => simp [insertDesc]
  | cons y ys =>
    unfold insertDesc
    split <;> simp

theorem sortRev_eq_nil_iff (l : List (PDate × String)) :
    sortRev l = [] ↔ l = [] := by
  cases l with
  | nil => simp [sortRev]
  | cons x xs =>
    simp only [sortRev]
    constructor
    · intro h; exact absurd h (insertDesc_ne_nil x (sortRev xs))
    · intro h; cases h

theorem mem_insertDesc (y x : PDate × String) (l : List (PDate × String)) :
    y ∈ insertDesc x l ↔ y = x ∨ y ∈ l := by
  induction l with
  | nil => simp [insertDesc]
  | cons a as ih =>
    unfold insertDesc
    split
    · simp [List.mem_cons]
    · simp only [List.mem_cons, ih]
      tauto

theorem mem_sortRev (y : PDate × String) (l : List (PDate × String)) :
    y ∈ sortRev l ↔ y ∈ l := by
  induction l with
  | nil => simp [sortRev]
  | cons a as ih => simp [sortRev, mem_insertDesc, ih]

theorem sortRev_head_latest :
    ∀ {l : List (PDate × String)} {x : PDate × String} {tl : List (PDate × String)},
      sortRev l = x :: tl → x ∈ l ∧ ∀ y ∈ l, dateLe y.1 x.1 := by
  intro l
  induction l with
  | nil => intro x tl h; cases h
  | cons a as ih =>
    intro x tl h
    simp only [sortRev] at h
    rcases h2 : sortRev as with _ | ⟨b, bs⟩
    · rw [h2] at h
      unfold insertDesc at h
      injection h with h1 _
      subst h1
      have : as = [] := (sortRev_eq_nil_iff as).mp h2
      subst this
      exact ⟨by simp, by intro y hy; simp at hy; subst hy; exact dateLe_refl _⟩
    · rw [h2] at h
      obtain ⟨hbmem, hbmax⟩ := ih h2
      unfold insertDesc at h
      split at h
      · rename_i hba
        injection h with h1 _
        subst h1
        refine ⟨by simp, ?_⟩
        intro y hy
        rcases List.mem_cons.mp hy with rfl | hy'
        · exact dateLe_refl _
        · exact dateLe_trans (hbmax y hy') hba
      · rename_i hnba
        injection h with h1 _
        subst h1
        refine ⟨List.mem_cons_of_mem _ hbmem, ?_⟩
        intro y hy
        rcases List.mem_cons.mp hy with rfl | hy'
        · rcases dateLe_total y.1 b.1 with hle | hle
          · exact hle
          · exact absurd hle hnba
        · exact hbmax y hy'

theorem mem_collectMatches {st : Store} {c m : String} {kh : KeyT} {d : PDate}
    {name : String} :
    (d, name) ∈ collectMatches st c m kh ↔
      ((c, m), name, true) ∈ st.children ∧
        (getFile st (c, m, name, kh)).isSome ∧ parseDate8 name = some d := by
  unfold collectMatches iterdir
  rw [List.mem_filterMap]
  constructor
  · rintro ⟨a, ha, hf⟩
    rw [List.mem_map] at ha
    rcases ha with ⟨row, hrow, rfl⟩
    rw [List.mem_filter] at hrow
    rcases hrow with ⟨hmem, hcm⟩
    rcases row with ⟨rns, rname, rdir⟩
    simp only [decide_eq_true_eq] at hcm
    subst hcm
    cases rdir with
    | false => simp at hf
    | true =>
      simp only [if_true] at hf
      split at hf
      · split at hf
        · rename_i hparse
          injection hf with hf1
          injection hf1 with hd hn
          subst hd; subst hn
          exact ⟨hmem, by assumption, hparse⟩
        · cases hf
      · cases hf
  · rintro ⟨hmem, hsome, hparse⟩
    refine ⟨(name, true), ?_, ?_⟩
    · rw [List.mem_map]
      exact ⟨((c, m), name, true), List.mem_filter.mpr ⟨hmem, by simp⟩, rfl⟩
    · simp [hsome, hparse]

theorem find_latest_spec {st : Store} {c m : String} {kh : KeyT} {name : String}
    (h : find_latest_cache_file st c m kh = some name) :
    ∃ d, (d, name) ∈ collectMatches st c m kh ∧
      ∀ y ∈ collectMatches st c m kh, dateLe y.1 d := by
  unfold find_latest_cache_file at h
  rcases h2 : sortRev (collectMatches st c m kh) with _ | ⟨x, tl⟩
  · rw [h2] at h; cases h
  · rw [h2] at h
    injection h with hx
    obtain ⟨hmem, hmax⟩ := sortRev_head_latest h2
    rcases x with ⟨d, nm⟩
    subst hx
    exact ⟨d, hmem, hmax⟩

theorem find_latest_none_iff {st : Store} {c m : String} {kh : KeyT} :
    find_latest_cache_file st c m kh = none ↔ collectMatches st c m kh = [] := by
  unfold find_latest_cache_file
  rw [← sortRev_eq_nil_iff]
  cases h2 : sortRev (collectMatches st c m kh) <;> simp [h2]

theorem collectMatches_mkdirNs (c' m' c m : String) (st : Store) (kh : KeyT) :
    collectMatches (mkdirNs c' m' st) c m kh = collectMatches st c m kh := by
  unfold collectMatches iterdir getFile
  simp only [mkdirNs_children, mkdirNs_files]

theorem find_latest_mkdirNs (c' m' c m : String) (st : Store) (kh : KeyT) :
    find_latest_cache_file (mkdirNs c' m' st) c m kh =
      find_latest_cache_file st c m kh := by
  unfold find_latest_cache_file
  rw [collectMatches_mkdirNs]

theorem strayConflict_mkdirNs (c' m' c m name : String) (st : Store) :
    strayConflict (mkdirNs c' m' st) c m name = strayConflict st c m name := by
  unfold strayConflict
  rw [mkdirNs_children]

theorem noCorrupt_mkdirNs (c' m' c m : String) (st : Store) (kh : KeyT) :
    noCorrupt (mkdirNs c' m' st) c m kh = noCorrupt st c m kh := by
  unfold noCorrupt getFile
  simp only [mkdirNs_children, mkdirNs_files]

/-- C1: for a normal-mode lookup, `find_latest_cache_file` considers exactly
the date-named subdirectories of the namespace directory that contain the
key-named file and whose name parses as a `YYYYMMDD` calendar date, skips
(without failing) the ones whose name does not parse, returns a match of
maximal date when one exists, and reports a miss (`none`) otherwise. -/
theorem claim_C1 (st : Store) (c m : String) (kh : KeyT) :
    (∀ name, find_latest_cache_file st c m kh = some name →
      ∃ d, (((c, m), name, true) ∈ st.children ∧
            (getFile st (c, m, name, kh)).isSome ∧ parseDate8 name = some d) ∧
        ∀ name' d', ((c, m), name', true) ∈ st.children →
          (getFile st (c, m, name', kh)).isSome → parseDate8 name' = some d' →
            dateLe d' d) ∧
    (find_latest_cache_file st c m kh = none ↔
      ∀ name d, ¬(((c, m), name, true) ∈ st.children ∧
        (getFile st (c, m, name, kh)).isSome ∧ parseDate8 name = some d)) := by
  constructor
  · intro name h
    obtain ⟨d, hmem, hmax⟩ := find_latest_spec h
    refine ⟨d, mem_collectMatches.mp hmem, ?_⟩
    intro name' d' hc hg hp
    exact hmax (d', name') (mem_collectMatches.mpr ⟨hc, hg, hp⟩)
  · rw [find_latest_none_iff]
    constructor
    · intro hnil name d hmatch
      have hm := mem_collectMatches.mpr hmatch
      rw [hnil] at hm
      exact absurd hm (List.not_mem_nil _)
    · intro hno
      rcases h2 : collectMatches st c m kh with _ | ⟨⟨d, name⟩, rest⟩
      · rfl
      · exfalso
        have hm : (d, name) ∈ collectMatches st c m kh := by rw [h2]; simp
        exact hno name d (mem_collectMatches.mp hm)

/-- Concrete store for the C1 witness: entries for the same key on dates
`20240101` and `20240115`. -/
def c1Store : Store :=
  ⟨[("PubMed", "search")],
   [(("PubMed", "search"), "20240101", true), (("PubMed", "search"), "20240115", true)],
   [(("PubMed", "search", "20240101", ([PyVal.pyInt 5], [])), .val (.pyInt 1)),
    (("PubMed", "search", "20240115", ([PyVal.pyInt 5], [])), .val (.pyInt 2))]⟩

/-- C1 witness: on the two-date store the lookup selects `20240115`, and the
selection facts follow by applying `claim_C1` there. -/
theorem claim_C1_witness :
    ∃ d, ((("PubMed", "search"), "20240115", true) ∈ c1Store.children ∧
          (getFile c1Store ("PubMed", "search", "20240115", ([PyVal.pyInt 5], []))).isSome ∧
          parseDate8 "20240115" = some d) ∧
      ∀ name' d', (("PubMed", "search"), name', true) ∈ c1Store.children →
        (getFile c1Store ("PubMed", "search", name', ([PyVal.pyInt 5], []))).isSome →
          parseDate8 name' = some d' → dateLe d' d :=
  (claim_C1 c1Store "PubMed" "search" ([PyVal.pyInt 5], [])).1 "20240115" (by decide)

/-- C5 counterexample: the program's key is
`sha256(pickle.dumps((args, frozenset(kwargs.items()))))`, and frozenset
pickling serializes in hash-table iteration order, which under slot
collisions follows insertion order (observed for real CPython hash seeds:
structurally equal dicts built in different orders yield different SHA-256
keys within one process).  Under that iteration order (`ord = id`), two
structurally equal kwarg dicts with unique keys, built in different
orders, derive different keys — refuting order-normalized determinism. -/
theorem claim_C5_counterexample :
    (([("batch", PyVal.pyInt 7), ("count", PyVal.pyInt 100)] : Kwargs)).Perm
        [("count", PyVal.pyInt 100), ("batch", PyVal.pyInt 7)] ∧
    ((([("batch", PyVal.pyInt 7), ("count", PyVal.pyInt 100)] : Kwargs)).map
        Prod.fst).Nodup ∧
    keyHash id [PyVal.pyInt 5]
        [("batch", PyVal.pyInt 7), ("count", PyVal.pyInt 100)] ≠
      keyHash id [PyVal.pyInt 5]
        [("count", PyVal.pyInt 100), ("batch", PyVal.pyInt 7)] :=
  ⟨List.Perm.swap _ _ _, by decide, by decide⟩

/-- C5 (amended): the derived key is a deterministic function of the
ordered positional arguments and of the kwargs item sequence as the
process's frozenset iteration presents it — not of the kwargs as an
unordered map.  Structurally equal kwarg dicts derive the same key exactly
when the iteration order presents their items identically (in particular
always when they were built in the same order, `kw1 = kw2`); the bypass
flag `force` is not an input of `keyHash` at all. -/
theorem claim_C5_amended (ord : Kwargs → Kwargs) (args : List PyVal)
    (kw1 kw2 : Kwargs) (hperm : kw1.Perm kw2) (hord : ord kw1 = ord kw2) :
    keyHash ord args kw1 = keyHash ord args kw2 := by
  have hall : kw1.all (fun p => hashable p.2 && picklable p.2) =
      kw2.all (fun p => hashable p.2 && picklable p.2) := by
    rw [Bool.eq_iff_iff]
    simp only [List.all_eq_true]
    exact ⟨fun h x hx => h x (hperm.mem_iff.mpr hx),
           fun h x hx => h x (hperm.mem_iff.mp hx)⟩
  unfold keyHash
  rw [hall, hord]

/-- C5 witness: under a key-sorting iteration order, the two insertion
orders of the same dict do receive one key. -/
theorem claim_C5_amended_witness :
    keyHash normKwargs [PyVal.pyInt 5]
        [("batch", PyVal.pyInt 7), ("count", PyVal.pyInt 100)] =
      keyHash normKwargs [PyVal.pyInt 5]
        [("count", PyVal.pyInt 100), ("batch", PyVal.pyInt 7)] :=
  claim_C5_amended normKwargs [PyVal.pyInt 5] _ _ (List.Perm.swap _ _ _)
    (by decide)

/-- C7: when the arguments cannot be serialized for key derivation
(`keyHash` fails), the wrapped call executes the function directly and
returns exactly its outcome (raising only if it raises), performs exactly
one invocation and no cache file I/O, and persists nothing: the store is
changed only by the eager namespace-directory creation. -/
theorem claim_C7 (lid : Nat) (func : PyFunc) (m : String) (self : Obj)
    (args : List PyVal) (kwargs : Kwargs) (force : Bool) (env : Env) (st : Store)
    (hk : keyHash env.setOrder args kwargs = none) (hb : env.mkdirBaseFault = false) :
    (wrapper lid func m self args kwargs force env st).out = func self args kwargs ∧
    (wrapper lid func m self args kwargs force env st).st =
      mkdirNs self.className m st ∧
    (wrapper lid func m self args kwargs force env st).trace = [.callF] := by
  unfold wrapper
  rw [hk]
  cases hf : func self args kwargs <;> simp [hb, hf]

/-- C7 witness: an unpicklable positional argument makes the call run the
function uncached and return its result. -/
theorem claim_C7_witness :
    (wrapper 0 (fun _ _ _ => .ok (.pyInt 3)) "search" ⟨"PubMed", .pyNone⟩
        [PyVal.unpicklable 0] [] false ⟨"20240115", false, false, false, false, false, id⟩
        ⟨[], [], []⟩).out =
      (fun (_ : Obj) (_ : List PyVal) (_ : Kwargs) => Res.ok (PyVal.pyInt 3))
        ⟨"PubMed", .pyNone⟩ [PyVal.unpicklable 0] [] ∧
    (wrapper 0 (fun _ _ _ => .ok (.pyInt 3)) "search" ⟨"PubMed", .pyNone⟩
        [PyVal.unpicklable 0] [] false ⟨"20240115", false, false, false, false, false, id⟩
        ⟨[], [], []⟩).st = mkdirNs "PubMed" "search" ⟨[], [], []⟩ ∧
    (wrapper 0 (fun _ _ _ => .ok (.pyInt 3)) "search" ⟨"PubMed", .pyNone⟩
        [PyVal.unpicklable 0] [] false ⟨"20240115", false, false, false, false, false, id⟩
        ⟨[], [], []⟩).trace = [.callF] :=
  claim_C7 0 (fun _ _ _ => .ok (.pyInt 3)) "search" ⟨"PubMed", .pyNone⟩
    [PyVal.unpicklable 0] [] false ⟨"20240115", false, false, false, false, false, id⟩
    ⟨[], [], []⟩ (by decide) rfl

theorem countCalls_append (a b : List Ev) :
    countCalls (a ++ b) = countCalls a + countCalls b := by
  unfold countCalls
  exact List.countP_append _ _ _

theorem countCalls_lockTail2 (lid : Nat) :
    countCalls [Ev.acquire lid, Ev.release lid] = 0 := rfl

theorem countCalls_lockTail3 (lid : Nat) (e : Ev) (h : e ≠ Ev.callF) :
    countCalls [Ev.acquire lid, e, Ev.release lid] = 0 := by
  cases e <;> first | rfl | exact absurd rfl h

theorem hasChildName_addChild (c m name : String) (st : Store) :
    hasChildName (addChild c m name st) c m name = true := by
  unfold addChild
  split
  · assumption
  · unfold hasChildName
    rw [List.any_append]
    simp

theorem persist_out (lid : Nat) (env : Env) (c m : String) (kh : KeyT) (r : PyVal)
    (st : Store) (tr : List Ev) (ht : env.mkdirTodayFault = false)
    (hs : strayConflict st c m env.todayStr = false) :
    (persist lid env c m kh r st tr).out = .ok r := by
  unfold persist
  rw [ht, hs]
  simp only [Bool.or_false, Bool.false_eq_true, if_false]
  split
  · rfl
  · split <;> rfl

theorem persist_countCalls (lid : Nat) (env : Env) (c m : String) (kh : KeyT)
    (r : PyVal) (st : Store) (tr : List Ev) (ht : env.mkdirTodayFault = false)
    (hs : strayConflict st c m env.todayStr = false) :
    countCalls (persist lid env c m kh r st tr).trace = countCalls tr := by
  unfold persist
  rw [ht, hs]
  simp only [Bool.or_false, Bool.false_eq_true, if_false]
  split
  · rw [countCalls_append, countCalls_lockTail2]
    omega
  · split <;> (rw [countCalls_append]; rfl)

theorem persist_trace_mem (lid : Nat) (env : Env) (c m : String) (kh : KeyT)
    (r : PyVal) (st : Store) (tr : List Ev) {x : Ev} (hx : x ∈ tr) :
    x ∈ (persist lid env c m kh r st tr).trace := by
  unfold persist
  split
  · exact hx
  · split
    · exact List.mem_append_left _ hx
    · split <;> exact List.mem_append_left _ hx

theorem missExec_exc (lid : Nat) (func : PyFunc) (self : Obj) (args : List PyVal)
    (kwargs : Kwargs) (m : String) (kh : KeyT) (env : Env) (st : Store)
    (tr : List Ev) {e : Exc} (hf : func self args kwargs = .exc e) :
    missExec lid func self args kwargs m kh env st tr =
      ⟨.exc e, st, tr ++ [.callF]⟩ := by
  unfold missExec
  rw [hf]

theorem missExec_ok_out (lid : Nat) (func : PyFunc) (self : Obj)
    (args : List PyVal) (kwargs : Kwargs) (m : String) (kh : KeyT) (env : Env)
    (st : Store) (tr : List Ev) {r : PyVal} (hf : func self args kwargs = .ok r)
    (ht : env.mkdirTodayFault = false)
    (hs : strayConflict st self.className m env.todayStr = false) :
    (missExec lid func self args kwargs m kh env st tr).out = .ok r := by
  unfold missExec
  rw [hf]
  exact persist_out _ _ _ _ _ _ _ _ ht hs

theorem missExec_ok_countCalls (lid : Nat) (func : PyFunc) (self : Obj)
    (args : List PyVal) (kwargs : Kwargs) (m : String) (kh : KeyT) (env : Env)
    (st : Store) (tr : List Ev) {r : PyVal} (hf : func self args kwargs = .ok r)
    (ht : env.mkdirTodayFault = false)
    (hs : strayConflict st self.className m env.todayStr = false) :
    countCalls (missExec lid func self args kwargs m kh env st tr).trace =
      countCalls tr + 1 := by
  unfold missExec
  rw [hf]
  rw [persist_countCalls _ _ _ _ _ _ _ _ ht hs, countCalls_append]
  rfl

theorem missExec_callF_mem (lid : Nat) (func : PyFunc) (self : Obj)
    (args : List PyVal) (kwargs : Kwargs) (m : String) (kh : KeyT) (env : Env)
    (st : Store) (tr : List Ev) :
    Ev.callF ∈ (missExec lid func self args kwargs m kh env st tr).trace := by
  unfold missExec
  split
  · exact List.mem_append_right _ (List.mem_singleton.mpr rfl)
  · exact persist_trace_mem _ _ _ _ _ _ _ _
      (List.mem_append_right _ (List.mem_singleton.mpr rfl))

theorem wrapper_basefault (lid : Nat) (func : PyFunc) (m : String) (self : Obj)
    (args : List PyVal) (kwargs : Kwargs) (force : Bool) {env : Env} (st : Store)
    (hb : env.mkdirBaseFault = true) :
    wrapper lid func m self args kwargs force env st = ⟨.exc .osError, st, []⟩ := by
  unfold wrapper
  rw [hb]
  simp

theorem wrapper_keyfail (lid : Nat) (func : PyFunc) (m : String) (self : Obj)
    {args : List PyVal} {kwargs : Kwargs} (force : Bool) {env : Env} (st : Store)
    (hb : env.mkdirBaseFault = false) (hk : keyHash env.setOrder args kwargs = none) :
    wrapper lid func m self args kwargs force env st =
      match func self args kwargs with
      | .ok r => ⟨.ok r, mkdirNs self.className m st, [.callF]⟩
      | .exc e => ⟨.exc e, mkdirNs self.className m st, [.callF]⟩ := by
  unfold wrapper
  simp only [hb, hk, Bool.false_eq_true, if_false]

theorem wrapper_scanfault (lid : Nat) (func : PyFunc) (m : String) (self : Obj)
    {args : List PyVal} {kwargs : Kwargs} (force : Bool) {env : Env} (st : Store)
    {kh : KeyT} (hb : env.mkdirBaseFault = false)
    (hk : keyHash env.setOrder args kwargs = some kh)
    (hsc : env.scanFault = true) :
    wrapper lid func m self args kwargs force env st =
      ⟨.exc .osError, mkdirNs self.className m st, []⟩ := by
  unfold wrapper
  simp only [hb, hk, hsc, Bool.false_eq_true, if_false, if_true]

theorem wrapper_force (lid : Nat) (func : PyFunc) (m : String) (self : Obj)
    {args : List PyVal} {kwargs : Kwargs} {env : Env} (st : Store) {kh : KeyT}
    (hb : env.mkdirBaseFault = false)
    (hk : keyHash env.setOrder args kwargs = some kh)
    (hsc : env.scanFault = false) :
    wrapper lid func m self args kwargs true env st =
      match func self args kwargs with
      | .exc e => ⟨.exc e, mkdirNs self.className m st, [.callF]⟩
      | .ok r =>
          persist lid env self.className m kh r (mkdirNs self.className m st)
            [.callF] := by
  unfold wrapper
  simp only [hb, hk, hsc, Bool.false_eq_true, if_false, if_true]

theorem wrapper_hit_read (lid : Nat) (func : PyFunc) (m : String) (self : Obj)
    {args : List PyVal} {kwargs : Kwargs} {env : Env} {st : Store} {kh : KeyT}
    {dname : String} {v : PyVal}
    (hb : env.mkdirBaseFault = false)
    (hk : keyHash env.setOrder args kwargs = some kh)
    (hsc : env.scanFault = false)
    (hcf : find_latest_cache_file (mkdirNs self.className m st) self.className m kh =
      some dname)
    (hrf : env.openReadFault = false)
    (hload : pickleLoads ((getFile (mkdirNs self.className m st)
        (self.className, m, dname, kh)).getD (.junk 0)) = some v) :
    wrapper lid func m self args kwargs false env st =
      ⟨.ok v, mkdirNs self.className m st, [.acquire lid, .fRead, .release lid]⟩ := by
  unfold wrapper
  simp only [hb, hk, hsc, hcf, hrf, hload, Bool.false_eq_true, if_false]

theorem wrapper_hit_corrupt (lid : Nat) (func : PyFunc) (m : String) (self : Obj)
    {args : List PyVal} {kwargs : Kwargs} {env : Env} {st : Store} {kh : KeyT}
    {dname : String}
    (hb : env.mkdirBaseFault = false)
    (hk : keyHash env.setOrder args kwargs = some kh)
    (hsc : env.scanFault = false)
    (hcf : find_latest_cache_file (mkdirNs self.className m st) self.className m kh =
      some dname)
    (hrf : env.openReadFault = false)
    (hload : pickleLoads ((getFile (mkdirNs self.className m st)
        (self.className, m, dname, kh)).getD (.junk 0)) = none) :
    wrapper lid func m self args kwargs false env st =
      missExec lid func self args kwargs m kh env (mkdirNs self.className m st)
        [.acquire lid, .fRead, .release lid] := by
  unfold wrapper
  simp only [hb, hk, hsc, hcf, hrf, hload, Bool.false_eq_true, if_false]

theorem wrapper_hit_readfault (lid : Nat) (func : PyFunc) (m : String) (self : Obj)
    {args : List PyVal} {kwargs : Kwargs} {env : Env} {st : Store} {kh : KeyT}
    {dname : String}
    (hb : env.mkdirBaseFault = false)
    (hk : keyHash env.setOrder args kwargs = some kh)
    (hsc : env.scanFault = false)
    (hcf : find_latest_cache_file (mkdirNs self.className m st) self.className m kh =
      some dname)
    (hrf : env.openReadFault = true) :
    wrapper lid func m self args kwargs false env st =
      missExec lid func self args kwargs m kh env (mkdirNs self.className m st)
        [.acquire lid, .release lid] := by
  unfold wrapper
  simp only [hb, hk, hsc, hcf, hrf, Bool.false_eq_true, if_false, if_true]

theorem wrapper_miss (lid : Nat) (func : PyFunc) (m : String) (self : Obj)
    {args : List PyVal} {kwargs : Kwargs} {env : Env} {st : Store} {kh : KeyT}
    (hb : env.mkdirBaseFault = false)
    (hk : keyHash env.setOrder args kwargs = some kh)
    (hsc : env.scanFault = false)
    (hcf : find_latest_cache_file (mkdirNs self.className m st) self.className m kh =
      none) :
    wrapper lid func m self args kwargs false env st =
      missExec lid func self args kwargs m kh env (mkdirNs self.className m st)
        [] := by
  unfold wrapper
  simp only [hb, hk, hsc, hcf, Bool.false_eq_true, if_false]

theorem missExec_C3props (lid : Nat) (func : PyFunc) (self : Obj)
    (args : List PyVal) (kwargs : Kwargs) (m : String) (kh : KeyT) (env : Env)
    (st : Store) (tr : List Ev) (ht : env.mkdirTodayFault = false)
    (hs : strayConflict st self.className m env.todayStr = false) :
    (∀ e, (missExec lid func self args kwargs m kh env st tr).out = .exc e →
      func self args kwargs = .exc e ∧
        Ev.callF ∈ (missExec lid func self args kwargs m kh env st tr).trace) ∧
    (∀ r, func self args kwargs = .ok r →
      ∃ v, (missExec lid func self args kwargs m kh env st tr).out = .ok v) ∧
    (∀ r, func self args kwargs = .ok r →
      Ev.callF ∈ (missExec lid func self args kwargs m kh env st tr).trace →
        (missExec lid func self args kwargs m kh env st tr).out = .ok r) := by
  rcases hf : func self args kwargs with r | e
  · have hout := missExec_ok_out lid func self args kwargs m kh env st tr hf ht hs
    refine ⟨?_, ?_, ?_⟩
    · intro e he
      rw [hout] at he
      cases he
    · intro r' hr'
      injection hr' with h
      subst h
      exact ⟨r, hout⟩
    · intro r' hr' _
      injection hr' with h
      subst h
      exact hout
  · rw [missExec_exc lid func self args kwargs m kh env st tr hf]
    refine ⟨?_, ?_, ?_⟩
    · intro e' he'
      injection he' with h
      subst h
      exact ⟨rfl, List.mem_append_right _ (List.mem_singleton.mpr rfl)⟩
    · intro r' hr'
      cases hr'
    · intro r' hr'
      cases hr'

/-- C3 (amended): with the unprotected filesystem calls excluded — the two
`mkdir(parents=True, exist_ok=True)` calls (lines 27-28 and 66/96) and the
lookup scan's `iterdir`/`is_dir`/`exists` (lines 42-45) all sit outside
every try/except, so their failures DO propagate — the wrapped call raises
exactly when the wrapped function raises, and that exception propagates
unchanged; argument serialization, entry read and entry write failures are
absorbed, and in particular a failed write still returns the freshly
computed result. -/
theorem claim_C3_amended (lid : Nat) (func : PyFunc) (m : String) (self : Obj)
    (args : List PyVal) (kwargs : Kwargs) (force : Bool) (env : Env) (st : Store)
    (hb : env.mkdirBaseFault = false) (hscan : env.scanFault = false)
    (ht : env.mkdirTodayFault = false)
    (hs : strayConflict st self.className m env.todayStr = false) :
    ∀ co, co = wrapper lid func m self args kwargs force env st →
      (∀ e, co.out = .exc e →
        func self args kwargs = .exc e ∧ Ev.callF ∈ co.trace) ∧
      (∀ r, func self args kwargs = .ok r → ∃ v, co.out = .ok v) ∧
      (∀ r, func self args kwargs = .ok r → Ev.callF ∈ co.trace →
        co.out = .ok r) := by
  intro co hco
  have hs1 : strayConflict (mkdirNs self.className m st) self.className m
      env.todayStr = false := by
    rw [strayConflict_mkdirNs]
    exact hs
  rcases hk : keyHash env.setOrder args kwargs with _ | kh
  · rw [wrapper_keyfail lid func m self force st hb hk] at hco
    rcases hf : func self args kwargs with r | e
    · rw [hf] at hco
      subst hco
      refine ⟨?_, ?_, ?_⟩
      · intro e he
        cases he
      · intro r' hr'
        injection hr' with h
        subst h
        exact ⟨r, rfl⟩
      · intro r' hr' _
        injection hr' with h
        subst h
        rfl
    · rw [hf] at hco
      subst hco
      refine ⟨?_, ?_, ?_⟩
      · intro e' he'
        injection he' with h
        subst h
        exact ⟨rfl, List.mem_singleton.mpr rfl⟩
      · intro r' hr'
        cases hr'
      · intro r' hr'
        cases hr'
  · cases force
    · rcases hcf : find_latest_cache_file (mkdirNs self.className m st)
          self.className m kh with _ | dname
      · rw [wrapper_miss lid func m self hb hk hscan hcf] at hco
        subst hco
        exact missExec_C3props lid func self args kwargs m kh env _ _ ht hs1
      · cases hrf : env.openReadFault
        · rcases hload : pickleLoads ((getFile (mkdirNs self.className m st)
              (self.className, m, dname, kh)).getD (.junk 0)) with _ | v
          · rw [wrapper_hit_corrupt lid func m self hb hk hscan hcf hrf hload] at hco
            subst hco
            exact missExec_C3props lid func self args kwargs m kh env _ _ ht hs1
          · rw [wrapper_hit_read lid func m self hb hk hscan hcf hrf hload] at hco
            subst hco
            refine ⟨?_, ?_, ?_⟩
            · intro e he
              cases he
            · intro r' _
              exact ⟨v, rfl⟩
            · intro r' _ hmem
              simp [List.mem_cons] at hmem
        · rw [wrapper_hit_readfault lid func m self hb hk hscan hcf hrf] at hco
          subst hco
          exact missExec_C3props lid func self args kwargs m kh env _ _ ht hs1
    · rw [wrapper_force lid func m self st hb hk hscan] at hco
      rcases hf : func self args kwargs with r | e
      · rw [hf] at hco
        subst hco
        have hout := persist_out lid env self.className m kh r
          (mkdirNs self.className m st) [.callF] ht hs1
        refine ⟨?_, ?_, ?_⟩
        · intro e he
          rw [hout] at he
          cases he
        · intro r' hr'
          injection hr' with h
          subst h
          exact ⟨r, hout⟩
        · intro r' hr' _
          injection hr' with h
          subst h
          exact hout
      · rw [hf] at hco
        subst hco
        refine ⟨?_, ?_, ?_⟩
        · intro e' he'
          injection he' with h
          subst h
          exact ⟨rfl, List.mem_singleton.mpr rfl⟩
        · intro r' hr'
          cases hr'
        · intro r' hr'
          cases hr'

/-- C3 counterexample: the claim says every directory-creation fault is
absorbed and the wrapped call raises only if the wrapped function raises.
With a failing `cache_base_dir.mkdir` (lines 27-28, outside any try/except)
the call raises `OSError` although the wrapped function never raises. -/
theorem claim_C3_counterexample :
    (wrapper 0 (fun _ _ _ => Res.ok PyVal.pyNone) "search" ⟨"PubMed", .pyNone⟩
        [] [] false ⟨"20240115", true, false, false, false, false, id⟩ ⟨[], [], []⟩).out =
      .exc .osError ∧
    (fun (_ : Obj) (_ : List PyVal) (_ : Kwargs) => Res.ok PyVal.pyNone)
      ⟨"PubMed", .pyNone⟩ [] [] = Res.ok PyVal.pyNone :=
  ⟨rfl, rfl⟩

def c3Func : PyFunc := fun _ _ _ => .exc (.funcErr 7)

def c3Co : CallOut :=
  wrapper 0 c3Func "search" ⟨"PubMed", .pyNone⟩ [.pyInt 1] [] false
    ⟨"20240115", false, false, false, false, false, id⟩ ⟨[], [], []⟩

/-- C3 witness: a concrete failing wrapped function's exception propagates
unchanged through the wrapper. -/
theorem claim_C3_amended_witness :
    c3Func ⟨"PubMed", .pyNone⟩ [PyVal.pyInt 1] [] = .exc (.funcErr 7) ∧
      Ev.callF ∈ c3Co.trace :=
  (claim_C3_amended 0 c3Func "search" ⟨"PubMed", .pyNone⟩ [PyVal.pyInt 1] []
    false ⟨"20240115", false, false, false, false, false, id⟩ ⟨[], [], []⟩ rfl rfl rfl
    (by decide) c3Co rfl).1 (.funcErr 7) (by decide)

theorem hasChildName_setFile (st : Store) (p : PathT) (b : PBytes)
    (c m name : String) :
    hasChildName (setFile st p b) c m name = hasChildName st c m name := rfl

theorem persist_st_write (lid : Nat) (env : Env) (c m : String) (kh : KeyT)
    (r : PyVal) (st : Store) (tr : List Ev) (ht : env.mkdirTodayFault = false)
    (hs : strayConflict st c m env.todayStr = false)
    (hw : env.openWriteFault = false) (hp : picklable r = true) :
    (persist lid env c m kh r st tr).st =
      setFile (addChild c m env.todayStr st) (c, m, env.todayStr, kh) (.val r) := by
  unfold persist
  rw [ht, hs, hw, hp]
  simp

/-- C4: in bypass mode (`force=true`, serializable arguments), the wrapped
function is always executed (exactly one invocation, whatever entries the
store already holds — in particular a same-day, same-key entry), its fresh
result is returned, and the result is persisted under today's date
directory for that key, overwriting any previous bytes there. -/
theorem claim_C4 (lid : Nat) (func : PyFunc) (m : String) (self : Obj)
    (args : List PyVal) (kwargs : Kwargs) (env : Env) (st : Store) (kh : KeyT)
    (r : PyVal) (hk : keyHash env.setOrder args kwargs = some kh)
    (hr : func self args kwargs = .ok r) (hb : env.mkdirBaseFault = false)
    (hsc : env.scanFault = false) (ht : env.mkdirTodayFault = false)
    (hs : strayConflict st self.className m env.todayStr = false)
    (hw : env.openWriteFault = false) (hp : picklable r = true) :
    ∀ co, co = wrapper lid func m self args kwargs true env st →
      co.out = .ok r ∧ countCalls co.trace = 1 ∧
      getFile co.st (self.className, m, env.todayStr, kh) = some (.val r) ∧
      hasChildName co.st self.className m env.todayStr = true := by
  intro co hco
  have hs1 : strayConflict (mkdirNs self.className m st) self.className m
      env.todayStr = false := by
    rw [strayConflict_mkdirNs]
    exact hs
  rw [wrapper_force lid func m self st hb hk hsc, hr] at hco
  subst hco
  have hst := persist_st_write lid env self.className m kh r
    (mkdirNs self.className m st) [.callF] ht hs1 hw hp
  refine ⟨persist_out lid env self.className m kh r _ [.callF] ht hs1, ?_, ?_, ?_⟩
  · rw [persist_countCalls lid env self.className m kh r _ [.callF] ht hs1]
    rfl
  · rw [hst]
    exact getFile_setFile_same _ _ _
  · rw [hst, hasChildName_setFile]
    exact hasChildName_addChild _ _ _ _

def c4Store : Store :=
  ⟨[("PubMed", "search")], [(("PubMed", "search"), "20240115", true)],
   [(("PubMed", "search", "20240115", ([PyVal.pyInt 5], [])), .val (.pyInt 99))]⟩

def c4Co : CallOut :=
  wrapper 0 (fun _ _ _ => .ok (.pyInt 10)) "search" ⟨"PubMed", .pyNone⟩
    [.pyInt 5] [] true ⟨"20240115", false, false, false, false, false, id⟩ c4Store

/-- C4 witness: with a same-day, same-key entry holding other bytes,
bypass mode recomputes, returns the fresh result and overwrites the entry. -/
theorem claim_C4_witness :
    c4Co.out = .ok (.pyInt 10) ∧ countCalls c4Co.trace = 1 ∧
      getFile c4Co.st ("PubMed", "search", "20240115", ([PyVal.pyInt 5], [])) =
        some (.val (.pyInt 10)) ∧
      hasChildName c4Co.st "PubMed" "search" "20240115" = true :=
  claim_C4 0 (fun _ _ _ => .ok (.pyInt 10)) "search" ⟨"PubMed", .pyNone⟩
    [.pyInt 5] [] ⟨"20240115", false, false, false, false, false, id⟩ c4Store
    ([PyVal.pyInt 5], []) (.pyInt 10) (by decide) rfl rfl rfl rfl (by decide)
    rfl rfl c4Co rfl

/-- C6: when the normal-mode lookup finds an entry whose read fails (corrupt
bytes, or the read itself raising), the call treats it as a miss: the read
failure is not propagated, the wrapped function executes (one invocation)
and its fresh result is returned. -/
theorem claim_C6 (lid : Nat) (func : PyFunc) (m : String) (self : Obj)
    (args : List PyVal) (kwargs : Kwargs) (env : Env) (st : Store) (kh : KeyT)
    (dname : String) (r : PyVal)
    (hk : keyHash env.setOrder args kwargs = some kh)
    (hb : env.mkdirBaseFault = false) (hsc : env.scanFault = false)
    (ht : env.mkdirTodayFault = false)
    (hs : strayConflict st self.className m env.todayStr = false)
    (hcf : find_latest_cache_file st self.className m kh = some dname)
    (hcorr : env.openReadFault = true ∨
      pickleLoads ((getFile st (self.className, m, dname, kh)).getD (.junk 0)) =
        none)
    (hr : func self args kwargs = .ok r) :
    ∀ co, co = wrapper lid func m self args kwargs false env st →
      co.out = .ok r ∧ countCalls co.trace = 1 := by
  intro co hco
  have hs1 : strayConflict (mkdirNs self.className m st) self.className m
      env.todayStr = false := by
    rw [strayConflict_mkdirNs]
    exact hs
  have hcf1 : find_latest_cache_file (mkdirNs self.className m st)
      self.className m kh = some dname := by
    rw [find_latest_mkdirNs]
    exact hcf
  cases hrf : env.openReadFault
  · rcases hcorr with h1 | hload
    · rw [hrf] at h1
      cases h1
    · have hload1 : pickleLoads ((getFile (mkdirNs self.className m st)
          (self.className, m, dname, kh)).getD (.junk 0)) = none := by
        rw [getFile_mkdirNs]
        exact hload
      rw [wrapper_hit_corrupt lid func m self hb hk hsc hcf1 hrf hload1] at hco
      subst hco
      refine ⟨missExec_ok_out lid func self args kwargs m kh env _ _ hr ht hs1, ?_⟩
      rw [missExec_ok_countCalls lid func self args kwargs m kh env _ _ hr ht hs1]
      rfl
  · rw [wrapper_hit_readfault lid func m self hb hk hsc hcf1 hrf] at hco
    subst hco
    refine ⟨missExec_ok_out lid func self args kwargs m kh env _ _ hr ht hs1, ?_⟩
    rw [missExec_ok_countCalls lid func self args kwargs m kh env _ _ hr ht hs1]
    rfl

def c6Store : Store :=
  ⟨[("PubMed", "search")], [(("PubMed", "search"), "20240101", true)],
   [(("PubMed", "search", "20240101", ([PyVal.pyInt 5], [])), .junk 3)]⟩

def c6Co : CallOut :=
  wrapper 0 (fun _ _ _ => .ok (.pyInt 10)) "search" ⟨"PubMed", .pyNone⟩
    [.pyInt 5] [] false ⟨"20240115", false, false, false, false, false, id⟩ c6Store

/-- C6 witness: a same-key entry replaced by unparsable bytes makes a
normal-mode call recompute and return the fresh result. -/
theorem claim_C6_witness : c6Co.out = .ok (.pyInt 10) ∧ countCalls c6Co.trace = 1 :=
  claim_C6 0 (fun _ _ _ => .ok (.pyInt 10)) "search" ⟨"PubMed", .pyNone⟩
    [.pyInt 5] [] ⟨"20240115", false, false, false, false, false, id⟩ c6Store
    ([PyVal.pyInt 5], []) "20240101" (.pyInt 10) (by decide) rfl rfl rfl
    (by decide) (by decide) (Or.inr (by decide)) rfl c6Co rfl

/-- C8 counterexample: the claim says a call that persists nothing leaves
the store unchanged with no directories created.  On an empty store, a call
whose key derivation fails (so nothing is persisted, no write event) still
creates the `ClassName/MethodName` namespace directory, because lines 27-28
run `cache_base_dir.mkdir(parents=True, exist_ok=True)` unconditionally
before key derivation and lookup. -/
theorem claim_C8_counterexample :
    (wrapper 0 (fun _ _ _ => Res.ok PyVal.pyNone) "search" ⟨"PubMed", .pyNone⟩
        [PyVal.unpicklable 0] [] false ⟨"20240115", false, false, false, false, false, id⟩
        ⟨[], [], []⟩).st ≠ (⟨[], [], []⟩ : Store) ∧
    Ev.fWrite ∉ (wrapper 0 (fun _ _ _ => Res.ok PyVal.pyNone) "search"
        ⟨"PubMed", .pyNone⟩ [PyVal.unpicklable 0] []
        false ⟨"20240115", false, false, false, false, false, id⟩ ⟨[], [], []⟩).trace := by
  decide

/-- C8 (amended): the namespace (class-name, method-name) directory is
created eagerly on every call, before key derivation and lookup; apart from
that, a normal-mode call that persists nothing — a lookup hit, or a call
whose key derivation fails — changes nothing: no date directories are
created and no entries are written, modified or deleted. -/
theorem claim_C8_amended (lid : Nat) (func : PyFunc) (m : String) (self : Obj)
    (args : List PyVal) (kwargs : Kwargs) (env : Env) (st : Store)
    (hb : env.mkdirBaseFault = false)
    (hcase : keyHash env.setOrder args kwargs = none ∨
      (∃ kh dname v, keyHash env.setOrder args kwargs = some kh ∧
        env.scanFault = false ∧ env.openReadFault = false ∧
        find_latest_cache_file st self.className m kh = some dname ∧
        pickleLoads ((getFile st (self.className, m, dname, kh)).getD (.junk 0)) =
          some v)) :
    ∀ co, co = wrapper lid func m self args kwargs false env st →
      co.st = mkdirNs self.className m st ∧
      co.st.children = st.children ∧ co.st.files = st.files := by
  intro co hco
  rcases hcase with hk | ⟨kh, dname, v, hk, hsc, hrf, hcf, hload⟩
  · rw [wrapper_keyfail lid func m self false st hb hk] at hco
    rcases hf : func self args kwargs with r | e
    · rw [hf] at hco
      subst hco
      exact ⟨rfl, mkdirNs_children _ _ _, mkdirNs_files _ _ _⟩
    · rw [hf] at hco
      subst hco
      exact ⟨rfl, mkdirNs_children _ _ _, mkdirNs_files _ _ _⟩
  · have hcf1 : find_latest_cache_file (mkdirNs self.className m st)
        self.className m kh = some dname := by
      rw [find_latest_mkdirNs]
      exact hcf
    have hload1 : pickleLoads ((getFile (mkdirNs self.className m st)
        (self.className, m, dname, kh)).getD (.junk 0)) = some v := by
      rw [getFile_mkdirNs]
      exact hload
    rw [wrapper_hit_read lid func m self hb hk hsc hcf1 hrf hload1] at hco
    subst hco
    exact ⟨rfl, mkdirNs_children _ _ _, mkdirNs_files _ _ _⟩

def c8Store : Store :=
  ⟨[("PubMed", "search")], [(("PubMed", "search"), "20240101", true)],
   [(("PubMed", "search", "20240101", ([PyVal.pyInt 5], [])), .val (.pyInt 1))]⟩

def c8Co : CallOut :=
  wrapper 0 (fun _ _ _ => .ok (.pyInt 10)) "search" ⟨"PubMed", .pyNone⟩
    [.pyInt 5] [] false ⟨"20240115", false, false, false, false, false, id⟩ c8Store

/-- C8 witness: a lookup-hit call leaves children and entries untouched,
performing only the (here idempotent) namespace mkdir. -/
theorem claim_C8_amended_witness :
    c8Co.st = mkdirNs "PubMed" "search" c8Store ∧
      c8Co.st.children = c8Store.children ∧ c8Co.st.files = c8Store.files :=
  claim_C8_amended 0 (fun _ _ _ => .ok (.pyInt 10)) "search" ⟨"PubMed", .pyNone⟩
    [.pyInt 5] [] ⟨"20240115", false, false, false, false, false, id⟩ c8Store rfl
    (Or.inr ⟨([PyVal.pyInt 5], []), "20240101", .pyInt 1, by decide, rfl, rfl,
      by decide, by decide⟩) c8Co rfl

theorem lockScoped_append (lid : Nat) {ys : List Ev}
    (hys : lockScoped lid false ys = true) :
    ∀ (xs : List Ev) (b : Bool), lockScoped lid b xs = true →
      lockScoped lid b (xs ++ ys) = true := by
  intro xs
  induction xs with
  | nil =>
    intro b hb
    cases b
    · simpa using hys
    · simp [lockScoped] at hb
  | cons e tl ih =>
    intro b hb
    cases e with
    | acquire l =>
      simp only [List.cons_append, lockScoped, Bool.and_eq_true] at hb ⊢
      exact ⟨hb.1, ih true hb.2⟩
    | release l =>
      simp only [List.cons_append, lockScoped, Bool.and_eq_true] at hb ⊢
      exact ⟨hb.1, ih false hb.2⟩
    | fRead =>
      simp only [List.cons_append, lockScoped, Bool.and_eq_true] at hb ⊢
      exact ⟨hb.1, ih b hb.2⟩
    | fWrite =>
      simp only [List.cons_append, lockScoped, Bool.and_eq_true] at hb ⊢
      exact ⟨hb.1, ih b hb.2⟩
    | callF =>
      simp only [List.cons_append, lockScoped, Bool.and_eq_true] at hb ⊢
      exact ⟨hb.1, ih b hb.2⟩

theorem lockScoped_tr_read (lid : Nat) :
    lockScoped lid false [.acquire lid, .fRead, .release lid] = true := by
  simp [lockScoped]

theorem lockScoped_tr_rw (lid : Nat) :
    lockScoped lid false [.acquire lid, .release lid] = true := by
  simp [lockScoped]

theorem lockScoped_tr_write (lid : Nat) :
    lockScoped lid false [.acquire lid, .fWrite, .release lid] = true := by
  simp [lockScoped]

theorem lockScoped_persist (lid : Nat) (env : Env) (c m : String) (kh : KeyT)
    (r : PyVal) (st : Store) (tr : List Ev)
    (h : lockScoped lid false tr = true) :
    lockScoped lid false (persist lid env c m kh r st tr).trace = true := by
  unfold persist
  split
  · exact h
  · split
    · exact lockScoped_append lid (lockScoped_tr_rw lid) tr false h
    · split
      · exact lockScoped_append lid (lockScoped_tr_write lid) tr false h
      · exact lockScoped_append lid (lockScoped_tr_write lid) tr false h

theorem lockScoped_missExec (lid : Nat) (func : PyFunc) (self : Obj)
    (args : List PyVal) (kwargs : Kwargs) (m : String) (kh : KeyT) (env : Env)
    (st : Store) (tr : List Ev) (h : lockScoped lid false tr = true) :
    lockScoped lid false (missExec lid func self args kwargs m kh env st tr).trace =
      true := by
  have hcall : lockScoped lid false (tr ++ [Ev.callF]) = true :=
    lockScoped_append lid (by rfl) tr false h
  unfold missExec
  split
  · exact hcall
  · exact lockScoped_persist lid env self.className m kh _ st _ hcall

theorem lockScoped_wrapper (lid : Nat) (func : PyFunc) (m : String) (self : Obj)
    (args : List PyVal) (kwargs : Kwargs) (force : Bool) (env : Env) (st : Store) :
    lockScoped lid false (wrapper lid func m self args kwargs force env st).trace =
      true := by
  cases hb : env.mkdirBaseFault with
  | true =>
    rw [wrapper_basefault lid func m self args kwargs force st hb]
    rfl
  | false =>
    rcases hk : keyHash env.setOrder args kwargs with _ | kh
    · rw [wrapper_keyfail lid func m self force st hb hk]
      rcases hf : func self args kwargs with r | e <;> rfl
    · cases hsc : env.scanFault with
      | true =>
        rw [wrapper_scanfault lid func m self force st hb hk hsc]
        rfl
      | false =>
        cases force with
        | false =>
          rcases hcf : find_latest_cache_file (mkdirNs self.className m st)
              self.className m kh with _ | dname
          · rw [wrapper_miss lid func m self hb hk hsc hcf]
            exact lockScoped_missExec lid func self args kwargs m kh env _ [] rfl
          · cases hrf : env.openReadFault with
            | false =>
              rcases hload : pickleLoads ((getFile (mkdirNs self.className m st)
                  (self.className, m, dname, kh)).getD (.junk 0)) with _ | v
              · rw [wrapper_hit_corrupt lid func m self hb hk hsc hcf hrf hload]
                exact lockScoped_missExec lid func self args kwargs m kh env _ _
                  (lockScoped_tr_read lid)
              · rw [wrapper_hit_read lid func m self hb hk hsc hcf hrf hload]
                exact lockScoped_tr_read lid
            | true =>
              rw [wrapper_hit_readfault lid func m self hb hk hsc hcf hrf]
              exact lockScoped_missExec lid func self args kwargs m kh env _ _
                (lockScoped_tr_rw lid)
        | true =>
          rw [wrapper_force lid func m self st hb hk hsc]
          rcases hf : func self args kwargs with r | e
          · exact lockScoped_persist lid env self.className m kh r _ [.callF] rfl
          · rfl

/-- C9 (amended): every call of a decorated operation obeys, with respect to
that decoration's own lock, the discipline the spec describes: only that one
lock is used, every file read and write happens with it held, it is held
only around that file I/O (released before the call returns), and the
wrapped function always executes outside the lock.  The one lock is shared
by all calls, keys and instances of that decorated operation — but it is
per decorated operation, not one lock for the whole cache. -/
theorem claim_C9_amended (d : Decorated) (self : Obj) (args : List PyVal)
    (kwargs : Kwargs) (force : Bool) (env : Env) (st : Store) :
    lockScoped d.lockId false
      (callDecorated d self args kwargs force env st).trace = true :=
  lockScoped_wrapper d.lockId d.func d.funcName self args kwargs force env st

/-- C9 counterexample: `cache_lock = threading.Lock()` runs once per
decorator application (line 19), so decorating two operations — as
`pubmed.py` does for `search` and `fetch` — allocates two distinct locks:
reads and writes of different wrapped operations are NOT serialized by a
single process-wide lock. -/
theorem claim_C9_counterexample :
    (disk_cache_results (fun _ _ _ => Res.ok PyVal.pyNone) "search" 0).1.lockId ≠
      (disk_cache_results (fun _ _ _ => Res.ok PyVal.pyNone) "fetch"
        (disk_cache_results (fun _ _ _ => Res.ok PyVal.pyNone) "search" 0).2).1.lockId :=
  by decide

/-- C9 witness: the lock discipline on one concrete call. -/
theorem claim_C9_amended_witness :
    lockScoped 5 false
      (callDecorated ⟨fun _ _ _ => .ok (.pyInt 10), "search", 5⟩
        ⟨"PubMed", .pyNone⟩ [.pyInt 5] [] false
        ⟨"20240115", false, false, false, false, false, id⟩ ⟨[], [], []⟩).trace = true :=
  claim_C9_amended ⟨fun _ _ _ => .ok (.pyInt 10), "search", 5⟩
    ⟨"PubMed", .pyNone⟩ [.pyInt 5] [] false
    ⟨"20240115", false, false, false, false, false, id⟩ ⟨[], [], []⟩

theorem noCorrupt_getFile {st : Store} {c m : String} {kh : KeyT} {name : String}
    {b : PBytes} (hnc : noCorrupt st c m kh = true)
    (hch : ((c, m), name, true) ∈ st.children)
    (hparse : (parseDate8 name).isSome = true)
    (hgf : getFile st (c, m, name, kh) = some b) : ∃ v, b = .val v := by
  have hf := List.all_eq_true.mp hnc _ hch
  dsimp only at hf
  split at hf
  · rw [hgf] at hf
    cases b with
    | val v => exact ⟨v, rfl⟩
    | junk n => cases hf
  · rename_i hcond
    exfalso
    apply hcond
    simp [hparse]

theorem dirChild_of_hasChild_no_stray {st : Store} {c m name : String}
    (hhc : hasChildName st c m name = true)
    (hstray : strayConflict st c m name = false) :
    ((c, m), name, true) ∈ st.children := by
  unfold hasChildName at hhc
  rw [List.any_eq_true] at hhc
  obtain ⟨e, he, hcond⟩ := hhc
  simp only [Bool.and_eq_true, decide_eq_true_eq] at hcond
  obtain ⟨h1, h2⟩ := hcond
  have h3 : e.2.2 = true := by
    by_contra hfalse
    have hff : e.2.2 = false := by
      revert hfalse
      cases e.2.2 <;> simp
    have hcontra : strayConflict st c m name = true := by
      unfold strayConflict
      rw [List.any_eq_true]
      exact ⟨e, he, by simp [h1, h2, hff]⟩
    rw [hstray] at hcontra
    cases hcontra
  have heq : e = ((c, m), name, true) := by
    rcases e with ⟨e1, e2, e3⟩
    dsimp only at h1 h2 h3
    rw [h1, h2, h3]
  rw [← heq]
  exact he

theorem collectMatches_after_write {st : Store} {c m tday : String} {kh : KeyT}
    {d : PDate} (r : PyVal) (hparse : parseDate8 tday = some d)
    (hmiss : collectMatches st c m kh = [])
    (hstray : strayConflict st c m tday = false) :
    (∀ x ∈ collectMatches
        (setFile (addChild c m tday st) (c, m, tday, kh) (.val r)) c m kh,
      x = (d, tday)) ∧
    (d, tday) ∈ collectMatches
      (setFile (addChild c m tday st) (c, m, tday, kh) (.val r)) c m kh := by
  constructor
  · intro x hx
    rcases x with ⟨d', name⟩
    obtain ⟨hch, hgf, hp'⟩ := mem_collectMatches.mp hx
    by_cases hne : name = tday
    · subst hne
      rw [hparse] at hp'
      injection hp' with hdd
      rw [hdd]
    · exfalso
      have hpathne : ((c, m, name, kh) : PathT) ≠ (c, m, tday, kh) := fun hh =>
        hne (congrArg (fun p : PathT => p.2.2.1) hh)
      have hgf_st : (getFile st (c, m, name, kh)).isSome = true := by
        have h1 : getFile (setFile (addChild c m tday st) (c, m, tday, kh)
            (.val r)) (c, m, name, kh) = getFile st (c, m, name, kh) := by
          rw [getFile_setFile_ne _ _ hpathne, getFile_addChild]
        rwa [h1] at hgf
      have hch_st : ((c, m), name, true) ∈ st.children := by
        rw [setFile_children] at hch
        by_cases hhc : hasChildName st c m tday = true
        · rwa [show (addChild c m tday st).children = st.children from by
            unfold addChild; rw [if_pos hhc]] at hch
        · rw [show (addChild c m tday st).children =
              st.children ++ [((c, m), tday, true)] from by
            unfold addChild; rw [if_neg hhc]] at hch
          rcases List.mem_append.mp hch with h | h
          · exact h
          · exact absurd (congrArg (fun e => e.2.1) (List.mem_singleton.mp h)) hne
      have hmem_st : (d', name) ∈ collectMatches st c m kh :=
        mem_collectMatches.mpr ⟨hch_st, hgf_st, hp'⟩
      rw [hmiss] at hmem_st
      exact absurd hmem_st (List.not_mem_nil _)
  · have hch_tday : ((c, m), tday, true) ∈
        (setFile (addChild c m tday st) (c, m, tday, kh) (.val r)).children := by
      rw [setFile_children]
      by_cases hhc : hasChildName st c m tday = true
      · rw [show (addChild c m tday st).children = st.children from by
          unfold addChild; rw [if_pos hhc]]
        exact dirChild_of_hasChild_no_stray hhc hstray
      · rw [show (addChild c m tday st).children =
            st.children ++ [((c, m), tday, true)] from by
          unfold addChild; rw [if_neg hhc]]
        exact List.mem_append_right _ (List.mem_singleton.mpr rfl)
    exact mem_collectMatches.mpr
      ⟨hch_tday, by rw [getFile_setFile_same]; rfl, hparse⟩

theorem find_latest_after_write {st : Store} {c m tday : String} {kh : KeyT}
    {d : PDate} (r : PyVal) (hparse : parseDate8 tday = some d)
    (hmiss : collectMatches st c m kh = [])
    (hstray : strayConflict st c m tday = false) :
    find_latest_cache_file
      (setFile (addChild c m tday st) (c, m, tday, kh) (.val r)) c m kh =
      some tday := by
  obtain ⟨hall, hmem⟩ := collectMatches_after_write r hparse hmiss hstray
  unfold find_latest_cache_file
  rcases h2 : sortRev (collectMatches
      (setFile (addChild c m tday st) (c, m, tday, kh) (.val r)) c m kh)
    with _ | ⟨x, tl⟩
  · exfalso
    rw [(sortRev_eq_nil_iff _).mp h2] at hmem
    exact absurd hmem (List.not_mem_nil _)
  · have hx : x ∈ collectMatches
        (setFile (addChild c m tday st) (c, m, tday, kh) (.val r)) c m kh :=
      (mem_sortRev x _).mp (by rw [h2]; simp)
    rw [hall x hx]

theorem second_call_hit (lid : Nat) (func : PyFunc) (m : String)
    (self1 self2 : Obj) (args : List PyVal) (kwargs : Kwargs) (env1 env2 : Env)
    (st : Store) (kh : KeyT) (d1 : PDate) (r : PyVal)
    (hcls : self2.className = self1.className)
    (hk1 : keyHash env1.setOrder args kwargs = some kh)
    (hk2 : keyHash env2.setOrder args kwargs = some kh) (hff1 : faultFree env1)
    (hff2 : faultFree env2) (htoday : parseDate8 env1.todayStr = some d1)
    (hstray : strayConflict st self1.className m env1.todayStr = false)
    (hnc : noCorrupt st self1.className m kh = true)
    (hr : func self1 args kwargs = .ok r) (hp : picklable r = true) :
    ∀ co1 co2, co1 = wrapper lid func m self1 args kwargs false env1 st →
      co2 = wrapper lid func m self2 args kwargs false env2 co1.st →
      co2.out = co1.out ∧ countCalls co1.trace ≤ 1 ∧
        countCalls co2.trace = 0 := by
  intro co1 co2 hco1 hco2
  obtain ⟨hb1, ht1, hrf1, hw1, hsc1⟩ := hff1
  obtain ⟨hb2, ht2, hrf2, hw2, hsc2⟩ := hff2
  have hmem_ns : (self1.className, m) ∈ (mkdirNs self1.className m st).nsDirs :=
    mkdirNs_mem _ _ _
  rcases hcf : find_latest_cache_file (mkdirNs self1.className m st)
      self1.className m kh with _ | dname
  · have hmiss : collectMatches (mkdirNs self1.className m st)
        self1.className m kh = [] := find_latest_none_iff.mp hcf
    have hstray1 : strayConflict (mkdirNs self1.className m st) self1.className m
        env1.todayStr = false := by
      rw [strayConflict_mkdirNs]
      exact hstray
    rw [wrapper_miss lid func m self1 hb1 hk1 hsc1 hcf] at hco1
    rw [show missExec lid func self1 args kwargs m kh env1
          (mkdirNs self1.className m st) [] =
        persist lid env1 self1.className m kh r (mkdirNs self1.className m st)
          ([] ++ [.callF]) from by unfold missExec; rw [hr]] at hco1
    have hout1 : co1.out = .ok r := by
      rw [hco1]
      exact persist_out _ _ _ _ _ _ _ _ ht1 hstray1
    have hst1 : co1.st = setFile
        (addChild self1.className m env1.todayStr (mkdirNs self1.className m st))
        (self1.className, m, env1.todayStr, kh) (.val r) := by
      rw [hco1]
      exact persist_st_write _ _ _ _ _ _ _ _ ht1 hstray1 hw1 hp
    have hcnt1 : countCalls co1.trace = 1 := by
      rw [hco1, persist_countCalls _ _ _ _ _ _ _ _ ht1 hstray1]
      rfl
    have hflw := find_latest_after_write r htoday hmiss hstray1
    have hns2 : (self2.className, m) ∈ co1.st.nsDirs := by
      rw [hst1, setFile_nsDirs, addChild_nsDirs, hcls]
      exact hmem_ns
    have hmk2 : mkdirNs self2.className m co1.st = co1.st := mkdirNs_of_mem hns2
    have hcf2 : find_latest_cache_file (mkdirNs self2.className m co1.st)
        self2.className m kh = some env1.todayStr := by
      rw [hmk2, hcls, hst1]
      exact hflw
    have hload2 : pickleLoads ((getFile (mkdirNs self2.className m co1.st)
        (self2.className, m, env1.todayStr, kh)).getD (.junk 0)) = some r := by
      rw [hmk2, hcls, hst1, getFile_setFile_same]
      rfl
    rw [wrapper_hit_read lid func m self2 hb2 hk2 hsc2 hcf2 hrf2 hload2] at hco2
    refine ⟨?_, ?_, ?_⟩
    · rw [hco2, hout1]
    · rw [hcnt1]
    · rw [hco2]
      rfl
  · obtain ⟨dd, hmm, _⟩ := find_latest_spec hcf
    obtain ⟨hch1, hgf1, hpar1⟩ := mem_collectMatches.mp hmm
    rw [mkdirNs_children] at hch1
    rw [getFile_mkdirNs] at hgf1
    obtain ⟨b, hbb⟩ := Option.isSome_iff_exists.mp hgf1
    obtain ⟨v, rfl⟩ := noCorrupt_getFile hnc hch1 (by rw [hpar1]; rfl) hbb
    have hload : pickleLoads ((getFile (mkdirNs self1.className m st)
        (self1.className, m, dname, kh)).getD (.junk 0)) = some v := by
      rw [getFile_mkdirNs, hbb]
      rfl
    rw [wrapper_hit_read lid func m self1 hb1 hk1 hsc1 hcf hrf1 hload] at hco1
    have hout1 : co1.out = .ok v := by rw [hco1]
    have hst1 : co1.st = mkdirNs self1.className m st := by rw [hco1]
    have hcnt1 : countCalls co1.trace = 0 := by rw [hco1]; rfl
    have hmk2 : mkdirNs self2.className m co1.st = co1.st := by
      rw [hst1, hcls]
      exact mkdirNs_of_mem hmem_ns
    have hcf2 : find_latest_cache_file (mkdirNs self2.className m co1.st)
        self2.className m kh = some dname := by
      rw [hmk2, hcls, hst1]
      exact hcf
    have hload2 : pickleLoads ((getFile (mkdirNs self2.className m co1.st)
        (self2.className, m, dname, kh)).getD (.junk 0)) = some v := by
      rw [hmk2, hcls, hst1]
      exact hload
    rw [wrapper_hit_read lid func m self2 hb2 hk2 hsc2 hcf2 hrf2 hload2] at hco2
    refine ⟨?_, ?_, ?_⟩
    · rw [hco2, hout1]
    · rw [hcnt1]
      omega
    · rw [hco2]
      rfl

/-- C2: two successive normal-mode calls with identical arguments (no
intervening store mutation, OS faults or pre-corrupted entries for this key,
serializable arguments and result as the cache contract requires, and a
date-formatted clock) invoke the wrapped function at most once in total, and
the second call returns a result equal to the first call's result without
re-invoking the function. -/
theorem claim_C2 (lid : Nat) (func : PyFunc) (m : String) (self : Obj)
    (args : List PyVal) (kwargs : Kwargs) (env1 env2 : Env) (st : Store)
    (kh : KeyT) (d1 : PDate) (r : PyVal)
    (hk1 : keyHash env1.setOrder args kwargs = some kh)
    (hk2 : keyHash env2.setOrder args kwargs = some kh)
    (hff1 : faultFree env1) (hff2 : faultFree env2)
    (htoday : parseDate8 env1.todayStr = some d1)
    (hstray : strayConflict st self.className m env1.todayStr = false)
    (hnc : noCorrupt st self.className m kh = true)
    (hr : func self args kwargs = .ok r) (hp : picklable r = true) :
    ∀ co1 co2, co1 = wrapper lid func m self args kwargs false env1 st →
      co2 = wrapper lid func m self args kwargs false env2 co1.st →
      co2.out = co1.out ∧ countCalls co1.trace + countCalls co2.trace ≤ 1 ∧
        countCalls co2.trace = 0 := by
  intro co1 co2 h1 h2
  obtain ⟨ha, hb', hc⟩ := second_call_hit lid func m self self args kwargs env1
    env2 st kh d1 r rfl hk1 hk2 hff1 hff2 htoday hstray hnc hr hp co1 co2 h1 h2
  exact ⟨ha, by omega, hc⟩

def c2Co1 : CallOut :=
  wrapper 0 (fun _ _ _ => .ok (.pyInt 10)) "search" ⟨"PubMed", .pyStr "keyA"⟩
    [.pyInt 5] [] false ⟨"20240115", false, false, false, false, false, id⟩ ⟨[], [], []⟩

def c2Co2 : CallOut :=
  wrapper 0 (fun _ _ _ => .ok (.pyInt 10)) "search" ⟨"PubMed", .pyStr "keyA"⟩
    [.pyInt 5] [] false ⟨"20240115", false, false, false, false, false, id⟩ c2Co1.st

/-- C2 witness: the concrete two-call scenario of the spec (`f` invoked
once and the second call served from the cache). -/
theorem claim_C2_witness :
    c2Co2.out = c2Co1.out ∧
      countCalls c2Co1.trace + countCalls c2Co2.trace ≤ 1 ∧
      countCalls c2Co2.trace = 0 :=
  claim_C2 0 (fun _ _ _ => .ok (.pyInt 10)) "search" ⟨"PubMed", .pyStr "keyA"⟩
    [.pyInt 5] [] ⟨"20240115", false, false, false, false, false, id⟩
    ⟨"20240115", false, false, false, false, false, id⟩ ⟨[], [], []⟩ ([PyVal.pyInt 5], [])
    ⟨2024, 1, 15⟩ (.pyInt 10) (by decide) (by decide) ⟨rfl, rfl, rfl, rfl, rfl⟩
    ⟨rfl, rfl, rfl, rfl, rfl⟩ (by decide) rfl rfl rfl rfl c2Co1 c2Co2 rfl rfl

/-- C10: the cache key and storage path depend only on the class name, the
method name and the explicit `(args, kwargs)` — never on the instance or its
state.  A second call through a different instance of the same class (with
different configuration, and even when the wrapped function's output would
differ on that instance) is served the entry cached by the first instance,
without invoking the wrapped function. -/
theorem claim_C10 (lid : Nat) (func : PyFunc) (m : String) (self1 self2 : Obj)
    (args : List PyVal) (kwargs : Kwargs) (env1 env2 : Env) (st : Store)
    (kh : KeyT) (d1 : PDate) (r : PyVal)
    (hcls : self2.className = self1.className)
    (hk1 : keyHash env1.setOrder args kwargs = some kh)
    (hk2 : keyHash env2.setOrder args kwargs = some kh) (hff1 : faultFree env1)
    (hff2 : faultFree env2) (htoday : parseDate8 env1.todayStr = some d1)
    (hstray : strayConflict st self1.className m env1.todayStr = false)
    (hnc : noCorrupt st self1.className m kh = true)
    (hr : func self1 args kwargs = .ok r) (hp : picklable r = true) :
    ∀ co1 co2, co1 = wrapper lid func m self1 args kwargs false env1 st →
      co2 = wrapper lid func m self2 args kwargs false env2 co1.st →
      co2.out = co1.out ∧ countCalls co2.trace = 0 := by
  intro co1 co2 h1 h2
  obtain ⟨ha, _, hc⟩ := second_call_hit lid func m self1 self2 args kwargs env1
    env2 st kh d1 r hcls hk1 hk2 hff1 hff2 htoday hstray hnc hr hp co1 co2 h1 h2
  exact ⟨ha, hc⟩

def c10Func : PyFunc := fun s _ _ => .ok s.state

def c10Co1 : CallOut :=
  wrapper 0 c10Func "search" ⟨"Scopus", .pyStr "keyA"⟩ [.pyInt 5] [] false
    ⟨"20240115", false, false, false, false, false, id⟩ ⟨[], [], []⟩

def c10Co2 : CallOut :=
  wrapper 0 c10Func "search" ⟨"Scopus", .pyStr "keyB"⟩ [.pyInt 5] [] false
    ⟨"20240115", false, false, false, false, false, id⟩ c10Co1.st

/-- C10 witness: an instance with a different API key receives the result
cached through the first instance (the wrapped function, which would return
the other instance's state, is not invoked again). -/
theorem claim_C10_witness :
    c10Co2.out = c10Co1.out ∧ countCalls c10Co2.trace = 0 :=
  claim_C10 0 c10Func "search" ⟨"Scopus", .pyStr "keyA"⟩ ⟨"Scopus", .pyStr "keyB"⟩
    [.pyInt 5] [] ⟨"20240115", false, false, false, false, false, id⟩
    ⟨"20240115", false, false, false, false, false, id⟩ ⟨[], [], []⟩ ([PyVal.pyInt 5], [])
    ⟨2024, 1, 15⟩ (.pyStr "keyA") rfl (by decide) (by decide)
    ⟨rfl, rfl, rfl, rfl, rfl⟩ ⟨rfl, rfl, rfl, rfl, rfl⟩ (by decide) rfl rfl rfl
    rfl c10Co1 c10Co2 rfl rfl
